import Mathlib

/-!
Verification of the Ledger-backed CryptoNote transaction construction core
(`src/LedgerNote.ts` and `dist/LedgerDevice.js`) against its natural-language
specification.  The definitions below are a shallow embedding of the
TypeScript/JavaScript source: strings are lists of characters, byte buffers
are lists of naturals, JavaScript numbers and BigIntegers are naturals,
promises returning-or-throwing are `Except`, and the device transport is a
scripted oracle.  Keys, hashes and scalars are abstracted as naturals where
only equality matters; hex-string handling is modelled on characters where
the claim is about the hex validation itself.
-/

namespace LedgerSpec

/-! ## Offset conversions (claim C9)

`Common.ts` is not among the sources, so the two offset conversions are
modelled from the spec (section 4.4): "`absoluteToRelativeOffsets`: first
element unchanged; subsequent `r_i = a_i − a_{i−1}` with `a` sorted
ascending.  `relativeToAbsoluteOffsets` is the inverse prefix sum."
`LedgerNote.absoluteToRelativeOffsets` / `relativeToAbsoluteOffsets`
(LedgerNote.ts lines 140-163) return these lists element for element. -/

/-- Tail of the absolute-to-relative conversion: each element minus its
predecessor. -/
def relGo : Nat → List Nat → List Nat
  | _, [] => []
  | prev, x :: xs => (x - prev) :: relGo x xs

/-- Running prefix sum realising the relative-to-absolute conversion. -/
def absGo : Nat → List Nat → List Nat
  | _, [] => []
  | acc, x :: xs => (acc + x) :: absGo (acc + x) xs

/-- Modelled from the spec: `absoluteToRelativeOffsets` keeps the first
element and replaces every later element by its difference from its
predecessor. -/
def absoluteToRelativeOffsets (offsets : List Nat) : List Nat :=
  match offsets with
  | [] => []
  | a :: rest => a :: relGo a rest

/-- Modelled from the spec: `relativeToAbsoluteOffsets` is the inverse
prefix sum. -/
def relativeToAbsoluteOffsets (offsets : List Nat) : List Nat :=
  absGo 0 offsets

/-! ## Output decomposition (claim C1)

Model of `LedgerNote.generateTransactionOutputs` (LedgerNote.ts lines
419-455).  Only the produced amounts are kept: every entry of the source's
result list carries the same decoded destination address, which plays no
role in the claim.  The configured `maximumOutputAmount` stays a parameter
(`config.json` is not among the sources). -/

/-- Little-endian decimal digits of a natural number.  Mirrors
`amount.toString().split('').reverse()` (LedgerNote.ts line 431) as digit
values.  For `amount = 0` the JS list is the single character `0`, whose
zero digit the loop skips; here the zero case is the empty list, which
yields the same output. -/
def toDigitsLE (n : Nat) : List Nat :=
  if h : n = 0 then [] else n % 10 :: toDigitsLE (n / 10)
termination_by n
decreasing_by exact Nat.div_lt_self (Nat.pos_of_ne_zero h) (by decide)

/-- Value of a little-endian digit list; used to state that `toDigitsLE` is
a correct decimal decomposition. -/
def ofDigitsLE : List Nat → Nat
  | [] => 0
  | d :: ds => d + 10 * ofDigitsLE ds

/-- While-loop of `generateTransactionOutputs` (LedgerNote.ts lines
437-445): starting from `splitAmt = amt`, push `maximumOutputAmount` and
subtract it while `splitAmt >= maximumOutputAmount`.  The final remainder
`splitAmt < maximumOutputAmount` is dropped by the source.  The JS loop does
not terminate when `maximumOutputAmount = 0`; the `0 < maxOut` guard
totalises that (unreachable) case as the empty list. -/
def splitLoop (maxOut splitAmt : Nat) : List Nat :=
  if h : 0 < maxOut ∧ maxOut ≤ splitAmt then maxOut :: splitLoop maxOut (splitAmt - maxOut)
  else []
termination_by splitAmt
decreasing_by exact Nat.sub_lt (Nat.lt_of_lt_of_le h.1 h.2) h.1

/-- Digit loop of `generateTransactionOutputs` (LedgerNote.ts lines
433-452): the piece for digit `d` at position `i` is `amt = d * 10 ^ i`;
a piece above `maximumOutputAmount` is split greedily, a zero piece is
omitted, any other piece is pushed as is. -/
def genPieces (maxOut : Nat) : List Nat → Nat → List Nat
  | [], _ => []
  | d :: ds, i =>
    (if maxOut < d * 10 ^ i then splitLoop maxOut (d * 10 ^ i)
     else if d * 10 ^ i ≠ 0 then [d * 10 ^ i]
     else []) ++ genPieces maxOut ds (i + 1)

/-- Model of `LedgerNote.generateTransactionOutputs` restricted to the
produced amounts. -/
def generateTransactionOutputs (maxOut amount : Nat) : List Nat :=
  genPieces maxOut (toDigitsLE amount) 0

/-! ## Device client hex validation and APDU framing (claims C3, C4, C5) -/

/-- Errors of the Device Client layer: `InvalidArgument` (malformed input,
raised locally before any transport exchange), `PayloadTooLarge` (request
data over the APDU limit, also local), and `DeviceProtocolError` (a
non-`0x9000` status word, carrying the surfaced code). -/
inductive DeviceError where
  | invalidArgument
  | payloadTooLarge
  | deviceProtocolError (code : Nat)
deriving DecidableEq

/-- Character class of the regular expression `[0-9a-fA-F]` built by `isHex`
(LedgerDevice.js lines 794-800). -/
def isHexChar (c : Char) : Bool :=
  (decide ('0' ≤ c) && decide (c ≤ '9')) ||
  (decide ('a' ≤ c) && decide (c ≤ 'f')) ||
  (decide ('A' ≤ c) && decide (c ≤ 'F'))

/-- Model of `isHex` (LedgerDevice.js lines 794-800): the length must be
even and every character must match `[0-9a-fA-F]` (the regex is anchored
over the whole string with the string's own length as the repetition
count). -/
def isHex (value : List Char) : Bool :=
  value.length % 2 == 0 && value.all isHexChar

/-- Model of `isHex64` (LedgerDevice.js lines 804-806). -/
def isHex64 (value : List Char) : Bool :=
  isHex value && value.length == 64

/-- Model of `isHex128` (LedgerDevice.js lines 810-812). -/
def isHex128 (value : List Char) : Bool :=
  isHex value && value.length == 128

/-- Comparison definition following the words of claim C3 / spec section
4.2: "exactly 64 lowercase hex chars", i.e. only `[0-9a-f]` and length
exactly 64.  This is the spec side of the refinement; the source's
`isHex64` above also accepts uppercase characters. -/
def isLowerHex64Spec (value : List Char) : Bool :=
  value.length == 64 &&
    value.all fun c =>
      (decide ('0' ≤ c) && decide (c ≤ '9')) || (decide ('a' ≤ c) && decide (c ≤ 'f'))

/-- Nibble value of a hex character (`bytestream-helper` renders hex strings
to raw bytes at the boundary; only validated hex reaches this point). -/
def hexCharVal (c : Char) : Nat :=
  if decide ('0' ≤ c) && decide (c ≤ '9') then c.toNat - '0'.toNat
  else if decide ('a' ≤ c) && decide (c ≤ 'f') then c.toNat - 'a'.toNat + 10
  else if decide ('A' ≤ c) && decide (c ≤ 'F') then c.toNat - 'A'.toNat + 10
  else 0

/-- Raw bytes of a hex string, one byte per character pair. -/
def hexToBytes : List Char → List Nat
  | a :: b :: rest => (16 * hexCharVal a + hexCharVal b) :: hexToBytes rest
  | _ => []

/-- Big-endian two-byte rendering of a 16-bit value
(`writer.uint16_t(v, true)` in `bytestream-helper`). -/
def u16be (v : Nat) : List Nat := [v / 256 % 256, v % 256]

/-- Big-endian four-byte rendering of a 32-bit value
(`writer.uint32_t(v, true)`). -/
def u32be (v : Nat) : List Nat :=
  [v / 16777216 % 256, v / 65536 % 256, v / 256 % 256, v % 256]

/-- Big-endian read of the first two bytes of a buffer
(`reader.uint16_t(true)`). -/
def readU16BE (bytes : List Nat) : Nat :=
  256 * bytes.headD 0 + bytes.tail.headD 0

/-- Request-building half of `LedgerDevice.exchange` (LedgerDevice.js lines
751-772).  The frame is `CLA = 0xE0` (the constant the source names
`APDU.INS`), the command byte, `P1` (1 when confirmation is requested, else
0), `P2 = 0`, the u16 big-endian data length, then the data.  A data
payload longer than `512 - 6` bytes is rejected locally; the `Except.error`
case means nothing is ever emitted or sent to the transport.  With no data
the source writes `uint16_t(0)` without the big-endian flag, which is the
same two zero bytes. -/
def exchangeRequest (command : Nat) (confirm : Bool) (data : Option (List Nat)) :
    Except DeviceError (List Nat) :=
  match data with
  | some d =>
    if 512 - 6 < d.length then .error .payloadTooLarge
    else .ok ([224 % 256, command % 256, (if confirm then 1 else 0) % 256, 0 % 256] ++
      u16be d.length ++ d)
  | none => .ok ([224 % 256, command % 256, (if confirm then 1 else 0) % 256, 0 % 256] ++
      [0 % 256, 0 / 256 % 256])

/-- Response-handling half of `LedgerDevice.exchange` (LedgerDevice.js lines
774-787).  The source's locals map as: `code` is the trailing two bytes
(`result.drop (result.length - 2)`), `response` is the rest
(`result.take (result.length - 2)`), `errCode` is the big-endian status
word; on a non-`0x9000` status the surfaced code is the first two bytes of
the body when the body holds at least two bytes, otherwise the status word
itself; on `0x9000` the body is returned unchanged. -/
def exchangeResponse (result : List Nat) : Except DeviceError (List Nat) :=
  if readU16BE (result.drop (result.length - 2)) ≠ 36864 then
    .error (.deviceProtocolError
      (if 2 ≤ (result.take (result.length - 2)).length
       then readU16BE (result.take (result.length - 2))
       else readU16BE (result.drop (result.length - 2))))
  else .ok (result.take (result.length - 2))

/-- Validation-and-framing part of `LedgerDevice.checkKey` (LedgerDevice.js
lines 167-177): a malformed key raises `InvalidArgument` before any
transport exchange; otherwise the request for `CMD.CHECK_KEY = 0x16`
carries the 32 raw key bytes (the `confirm` argument of `exchange` is
omitted by the source and defaults to `true`). -/
def checkKey (key : List Char) : Except DeviceError (List Nat) :=
  if !isHex64 key then .error .invalidArgument
  else exchangeRequest 22 true (some (hexToBytes key))

/-- Validation-and-framing part of `LedgerDevice.checkScalar`
(LedgerDevice.js lines 182-192), `CMD.CHECK_SCALAR = 0x17`. -/
def checkScalar (scalar : List Char) : Except DeviceError (List Nat) :=
  if !isHex64 scalar then .error .invalidArgument
  else exchangeRequest 23 true (some (hexToBytes scalar))

/-- Validation-and-framing part of `LedgerDevice.privateToPublic`
(LedgerDevice.js lines 237-247), `CMD.PRIVATE_TO_PUBLIC = 0x18`. -/
def privateToPublic (privateKey : List Char) : Except DeviceError (List Nat) :=
  if !isHex64 privateKey then .error .invalidArgument
  else exchangeRequest 24 true (some (hexToBytes privateKey))

/-- Validation-and-framing part of `LedgerDevice.generateSignature`
(LedgerDevice.js lines 402-415), `CMD.GENERATE_SIGNATURE = 0x55`. -/
def generateSignature (messageDigest : List Char) : Except DeviceError (List Nat) :=
  if !isHex64 messageDigest then .error .invalidArgument
  else exchangeRequest 85 true (some (hexToBytes messageDigest))

/-- Validation-and-framing part of `LedgerDevice.generateKeyImage`
(LedgerDevice.js lines 279-297), `CMD.GENERATE_KEY_IMAGE = 0x40`.  The
source's `output_index < 0` check cannot fire for a natural number and is
omitted. -/
def generateKeyImageDevice (txPublicKey : List Char) (outputIndex : Nat)
    (outputKey : List Char) : Except DeviceError (List Nat) :=
  if !isHex64 txPublicKey then .error .invalidArgument
  else if !isHex64 outputKey then .error .invalidArgument
  else exchangeRequest 64 true
    (some (hexToBytes txPublicKey ++ u32be outputIndex ++ hexToBytes outputKey))

/-- Validation-and-framing part of `LedgerDevice.completeRingSignature`
(LedgerDevice.js lines 308-334), `CMD.COMPLETE_RING_SIGNATURE = 0x51`; the
`signature` parameter must be 128 hex characters. -/
def completeRingSignature (txPublicKey : List Char) (outputIndex : Nat)
    (outputKey k sig : List Char) : Except DeviceError (List Nat) :=
  if !isHex64 txPublicKey then .error .invalidArgument
  else if !isHex64 outputKey then .error .invalidArgument
  else if !isHex64 k then .error .invalidArgument
  else if !isHex128 sig then .error .invalidArgument
  else exchangeRequest 81 true
    (some (hexToBytes txPublicKey ++ u32be outputIndex ++ hexToBytes outputKey ++
      hexToBytes k ++ hexToBytes sig))

/-! ## CryptoNote helper level (claims C2, C6, C7, C8, C10)

From here on, hashes, keys, scalars and key images are abstracted as
naturals: the helper-level claims only compare them for equality or order
(the source compares key images and indexes as `BigInteger` values of the
hex strings, which respects this abstraction).  The crypto provider and the
device are oracles: pure functions supplied as parameters. -/

/-- Errors raised at the `LedgerNote` level.  Each constructor corresponds
to one `throw new Error(...)` / `throw new RangeError(...)` site of
LedgerNote.ts; `fusionInputCount` carries the configured
`fusionMinInputCount` quoted by the source's message. -/
inductive NErr where
  | notSupported
  | partialNotSupported
  | notOurOutput
  | randomSetMismatch
  | notEnoughRandom
  | outputAmountZero
  | outputAmountTooLarge
  | exceedsUintMax
  | pidConflictDiffering
  | pidMismatch
  | spendAmountZero
  | insufficientFunds
  | feeExceedsChange
  | missingKeyImage
  | missingInputData
  | realAmountZero
  | cannotMixSelf
  | tooManyOutputs
  | fusionInputCount (quoted : Nat)
  | fusionRatioUnmet
  | deviceValidation
  | deviceProtocol (code : Nat)
  | unexpectedState (expected : Nat)
  | decodeFailed
  | hashMismatch
  | sizeMismatch
deriving DecidableEq

/-- Fusion pre-checks of `LedgerNote.createTransaction` (LedgerNote.ts
lines 610-620), reached when `feeAmount = 0`: the literal threshold
compared is `12` while the error message quotes the configured
`fusionMinInputCount` (carried in the error value); then the input:output
count ratio is compared against the configured `fusionMinInOutCountRatio`
(`minRq`).  The division is JS floating division: when `nOutputs = 0` the
quotient is `Infinity` (`nInputs ≥ 12 > 0` there), which never tests below
`minRq` — the `0 < nOutputs` conjunct reproduces exactly that. -/
def fusionChecks (cfgFusionMinInputCount : Nat) (minRq : ℚ)
    (feeAmount nInputs nOutputs : Nat) : Except NErr Unit :=
  if feeAmount = 0 then
    if nInputs < 12 then .error (.fusionInputCount cfgFusionMinInputCount)
    else if 0 < nOutputs ∧ ((nInputs : ℚ) / (nOutputs : ℚ)) < minRq then
      .error .fusionRatioUnmet
    else .ok ()
  else .ok ()

/-- The `transactionKeys` record attached to a scanned output
(LedgerNote.ts lines 324-328). -/
structure TransactionKeys where
  publicKey : Nat
  derivedKey : Nat
  outputIndex : Nat
deriving DecidableEq

/-- The `input` record attached to a scanned output (LedgerNote.ts lines
322-329 and 335); `privateEphemeral` is set to the all-zero `NULL_KEY`,
modelled as `some 0`. -/
structure InputRecord where
  publicEphemeral : Nat
  transactionKeys : TransactionKeys
  privateEphemeral : Option Nat
deriving DecidableEq

/-- A transaction output as consumed and produced by scanning and by input
preparation (`Interfaces.Output`): `index` is the position inside its
transaction, `globalIndex` the chain-global index. -/
structure Output where
  amount : Nat
  index : Nat
  globalIndex : Nat
  key : Nat
  keyImage : Option Nat
  input : Option InputRecord
deriving DecidableEq

/-- The external crypto provider (spec section 6), pure functions. -/
structure CryptoProvider where
  generateKeyDerivation : Nat → Nat → Nat
  derivePublicKey : Nat → Nat → Nat → Nat
  cnFastHash : List Nat → Nat

/-- Session keys cached by `fetchKeys`: the device's private view key and
public spend key.  The claims below concern behaviour after the fetch, so
the cache is a parameter. -/
structure DeviceKeys where
  viewPrivate : Nat
  spendPublic : Nat

/-- Oracle for the two device commands the helper-level operations issue:
`GENERATE_KEY_IMAGE` (primitive form: derivation, output index, public
ephemeral) and `GENERATE_SIGNATURE` (digest). -/
structure DeviceOracle where
  generateKeyImagePrimitive : Nat → Nat → Nat → Nat
  generateSignature : Nat → Nat

/-- Model of `LedgerNote.generateKeyImagePrimitive` (LedgerNote.ts lines
204-225).  The `publicSpendKey` / `privateSpendKey` arguments are passed to
`UNUSED` and ignored; the device-held spend key is used instead.  Returns
the pair `(publicEphemeral, keyImage)`. -/
def generateKeyImagePrimitiveNote (C : CryptoProvider) (dev : DeviceOracle)
    (K : DeviceKeys) (publicSpendKey privateSpendKey : Option Nat)
    (outputIndex derivation : Nat) : Nat × Nat :=
  let publicEphemeral := C.derivePublicKey derivation outputIndex K.spendPublic
  (publicEphemeral, dev.generateKeyImagePrimitive derivation outputIndex publicEphemeral)

/-- Model of `LedgerNote.generateKeyImage` (LedgerNote.ts lines 175-193).
The `privateViewKey` / `publicSpendKey` / `privateSpendKey` arguments are
passed to `UNUSED` and ignored; the derivation uses the device-held private
view key.  Returns `(publicEphemeral, keyImage)`; the device request is
fully determined by `(derivation, outputIndex, publicEphemeral)`, the
arguments given to the oracle. -/
def generateKeyImageNote (C : CryptoProvider) (dev : DeviceOracle) (K : DeviceKeys)
    (transactionPublicKey : Nat)
    (privateViewKey publicSpendKey privateSpendKey : Option Nat)
    (outputIndex : Nat) : Nat × Nat :=
  let derivation := C.generateKeyDerivation transactionPublicKey K.viewPrivate
  generateKeyImagePrimitiveNote C dev K none none outputIndex derivation

/-- Model of `LedgerNote.isOurTransactionOutput` (LedgerNote.ts lines
296-343): derive the shared secret from the transaction public key and the
device-held private view key, derive the candidate public ephemeral, and on
a match attach the `input` record plus the device-generated key image; the
`privateViewKey` / `publicSpendKey` / `privateSpendKey` arguments are
passed to `UNUSED` and ignored. -/
def isOurTransactionOutput (C : CryptoProvider) (dev : DeviceOracle) (K : DeviceKeys)
    (transactionPublicKey : Nat) (output : Output)
    (privateViewKey publicSpendKey privateSpendKey : Option Nat)
    (generatePartial : Bool) : Except NErr Output :=
  if generatePartial then .error .partialNotSupported
  else
    let derivedKey := C.generateKeyDerivation transactionPublicKey K.viewPrivate
    let publicEphemeral := C.derivePublicKey derivedKey output.index K.spendPublic
    if publicEphemeral = output.key then
      .ok { output with
        input := some
          { publicEphemeral := publicEphemeral,
            transactionKeys :=
              { publicKey := transactionPublicKey,
                derivedKey := derivedKey,
                outputIndex := output.index },
            privateEphemeral := some 0 },
        keyImage := some (generateKeyImageNote C dev K transactionPublicKey
          none none none output.index).2 }
    else .error .notOurOutput

/-- Model of `LedgerNote.scanTransactionOutputs` (LedgerNote.ts lines
249-282).  The source appends `.catch()` — with no handler — to each
`isOurTransactionOutput` promise; a handler-less `catch` does not swallow
the rejection, so `Promise.all` rejects as soon as any single output fails
the ownership predicate.  `mapM` over `Except` models exactly that
first-rejection propagation.  The subsequent `if (result)` truthiness
filter keeps every collected result (an `Output` object is always truthy),
modelled by the trivial `filter`. -/
def scanTransactionOutputs (C : CryptoProvider) (dev : DeviceOracle) (K : DeviceKeys)
    (transactionPublicKey : Nat) (outputs : List Output)
    (privateViewKey publicSpendKey : Nat) (privateSpendKey : Option Nat)
    (generatePartial : Bool) : Except NErr (List Output) :=
  match outputs.mapM (fun o =>
      isOurTransactionOutput C dev K transactionPublicKey o
        (some privateViewKey) (some publicSpendKey) privateSpendKey generatePartial) with
  | .error e => .error e
  | .ok results => .ok (results.filter fun _ => true)

/-- Model of `LedgerNote.signMessage` (LedgerNote.ts lines 464-476): the
`privateKey` argument is passed to `UNUSED` and ignored; the message (here
already rendered to bytes) is hashed with `cn_fast_hash` and the digest is
signed by the device.  The device request is the digest handed to the
oracle. -/
def signMessage (C : CryptoProvider) (dev : DeviceOracle) (message : List Nat)
    (privateKey : Option Nat) : Nat :=
  dev.generateSignature (C.cnFastHash message)

/-! ## Input preparation (claim C7) -/

/-- A decoy output from the supplied mixing pool (`Interfaces.RandomOutput`). -/
structure RandomOutput where
  key : Nat
  globalIndex : Nat
deriving DecidableEq

/-- One ring member reference `{key, index}`
(`Interfaces.PreparedInputOutputs`). -/
structure PreparedInputOutput where
  key : Nat
  index : Nat
deriving DecidableEq

/-- A prepared transaction input (`Interfaces.PreparedInput`, built at
LedgerNote.ts lines 874-880). -/
structure PreparedInput where
  amount : Nat
  realOutputIndex : Nat
  keyImage : Nat
  input : InputRecord
  outputs : List PreparedInputOutput
deriving DecidableEq

/-- Comparator of the fake-output sort (LedgerNote.ts lines 841-843):
ascending by `globalIndex` compared as `BigInteger` values. -/
def fakeLE (a b : RandomOutput) : Prop := a.globalIndex ≤ b.globalIndex

instance : DecidableRel fakeLE := fun a b => Nat.decLe a.globalIndex b.globalIndex

instance : IsTotal RandomOutput fakeLE := ⟨fun a b => Nat.le_total a.globalIndex b.globalIndex⟩

instance : IsTrans RandomOutput fakeLE := ⟨fun _ _ _ => Nat.le_trans⟩

/-- Comparator of the ring sort (LedgerNote.ts lines 870-872): ascending by
`index`. -/
def ringLE (a b : PreparedInputOutput) : Prop := a.index ≤ b.index

instance : DecidableRel ringLE := fun a b => Nat.decLe a.index b.index

instance : IsTotal PreparedInputOutput ringLE := ⟨fun a b => Nat.le_total a.index b.index⟩

instance : IsTrans PreparedInputOutput ringLE := ⟨fun _ _ _ => Nat.le_trans⟩

/-- Comparator of the authoritative input sort
(LedgerNote.ts lines 622-624): the `BigInteger` comparison of the key
images is negated, i.e. descending. -/
def keyImageGE (a b : PreparedInput) : Prop := b.keyImage ≤ a.keyImage

instance : DecidableRel keyImageGE := fun a b => Nat.decLe b.keyImage a.keyImage

instance : IsTotal PreparedInput keyImageGE :=
  ⟨fun a b => (Nat.le_total b.keyImage a.keyImage)⟩

instance : IsTrans PreparedInput keyImageGE := ⟨fun _ _ _ h1 h2 => Nat.le_trans h2 h1⟩

/-- Decoy selection loop of `prepareTransactionInputs` (LedgerNote.ts lines
845-858): walk the (sorted) fake outputs, skip once `mixin` members are
collected, skip a fake whose `globalIndex` equals the real output's, and
otherwise append the `{key, index}` reference. -/
def selectFakes (realGlobalIndex mixin : Nat) :
    List RandomOutput → List PreparedInputOutput → List PreparedInputOutput
  | [], acc => acc
  | fo :: rest, acc =>
    if acc.length = mixin then selectFakes realGlobalIndex mixin rest acc
    else if fo.globalIndex = realGlobalIndex then selectFakes realGlobalIndex mixin rest acc
    else selectFakes realGlobalIndex mixin rest
      (acc ++ [{ key := fo.key, index := fo.globalIndex }])

/-- Scan of `prepareTransactionInputs` (LedgerNote.ts lines 882-886) that
records the position of the ring member whose `index` equals the real
output's `globalIndex`; starting accumulator 0, later matches override
earlier ones. -/
def findRealIndexAux (gi : Nat) : List PreparedInputOutput → Nat → Nat → Nat
  | [], _, acc => acc
  | o :: rest, j, acc => findRealIndexAux gi rest (j + 1) (if o.index = gi then j else acc)

/-- Position of the real ring member (LedgerNote.ts lines 876 and 882-886). -/
def findRealIndex (ring : List PreparedInputOutput) (gi : Nat) : Nat :=
  findRealIndexAux gi ring 0 0

/-- Mixed decoy assembly for one real output (LedgerNote.ts lines 838-863):
with a non-zero mixin the fakes are sorted ascending by `globalIndex`, the
first `mixin` fakes distinct from the real `globalIndex` are taken, and
fewer than `mixin` survivors raise; with mixin 0 the list is empty.  The
source's sort mutates in place; `List.insertionSort` is the stable sort of
this embedding (JS `Array.sort` is stable and the comparator is a total
preorder, so the result is the same). -/
def mixedOutputsFor (mixin : Nat) (realOutput : Output) (fakesRaw : List RandomOutput) :
    Except NErr (List PreparedInputOutput) :=
  if mixin ≠ 0 then
    let fakes := List.insertionSort fakeLE fakesRaw
    let mixed := selectFakes realOutput.globalIndex mixin fakes []
    if mixed.length < mixin then .error .cannotMixSelf else .ok mixed
  else .ok []

/-- Preparation of a single input (body of the `for` loop of
`prepareTransactionInputs`, LedgerNote.ts lines 822-888): validate the key
image, the `input` record and the amount, assemble the decoys, append the
real member, sort the ring ascending by `index`, and record the real
member's position. -/
def prepareOneInput (mixin : Nat) (realOutput : Output) (fakesRaw : List RandomOutput) :
    Except NErr PreparedInput :=
  match realOutput.keyImage with
  | none => .error .missingKeyImage
  | some ki =>
    match realOutput.input with
    | none => .error .missingInputData
    | some inp =>
      if realOutput.amount = 0 then .error .realAmountZero
      else
        match mixedOutputsFor mixin realOutput fakesRaw with
        | .error e => .error e
        | .ok mixed =>
          let ring := List.insertionSort ringLE
            (mixed ++ [{ key := realOutput.key, index := realOutput.globalIndex }])
          .ok { amount := realOutput.amount,
                realOutputIndex := findRealIndex ring realOutput.globalIndex,
                keyImage := ki,
                input := inp,
                outputs := ring }

/-- Main loop of `prepareTransactionInputs` over the inputs; the `i`-th
input mixes with the `i`-th random output set (only read when the mixin is
non-zero, where the two lists have equal length). -/
def prepareInputsLoop (mixin : Nat) :
    List Output → List (List RandomOutput) → Except NErr (List PreparedInput)
  | [], _ => .ok []
  | inp :: rest, rnds =>
    match prepareOneInput mixin inp (rnds.headD []) with
    | .error e => .error e
    | .ok p =>
      match prepareInputsLoop mixin rest rnds.tail with
      | .error e => .error e
      | .ok ps => .ok (p :: ps)

/-- Model of the module-level `prepareTransactionInputs` (LedgerNote.ts
lines 806-892). -/
def prepareTransactionInputs (inputs : List Output)
    (randomOutputs : List (List RandomOutput)) (mixin : Nat) :
    Except NErr (List PreparedInput) :=
  if inputs.length ≠ randomOutputs.length ∧ mixin ≠ 0 then .error .randomSetMismatch
  else if randomOutputs.any (fun s => s.length < mixin) then .error .notEnoughRandom
  else prepareInputsLoop mixin inputs randomOutputs

/-- Authoritative key-image sort of `createTransaction` (LedgerNote.ts
lines 622-624): descending by key image, applied to the prepared inputs
before any `TX_LOAD_INPUT`. -/
def sortPreparedInputs (l : List PreparedInput) : List PreparedInput :=
  List.insertionSort keyImageGE l

/-! ## Device transaction phase and the full builder (claims C6, C8)

The device is modelled as a scripted oracle: each `exchange` consumes the
next scripted reply and appends the command to an observable trace.  Keys
and hashes stay abstract naturals; request payload contents are modelled at
the APDU layer (claims C3-C5) and elided here, where the claims concern the
order of commands and the exit paths. -/

/-- Device commands observable in a transaction build trace. -/
inductive Cmd where
  | randomKeyPair
  | txState
  | txStart
  | txStartInputLoad
  | txLoadInput
  | txStartOutputLoad
  | txLoadOutput
  | txFinalizePfx
  | txSign
  | txDump
  | txReset
deriving DecidableEq

/-- Scripted device replies: an acknowledgement (empty body), a state byte,
a random key pair, the sign result, or a dump chunk. -/
inductive Reply where
  | ack
  | state (s : Nat)
  | keyPair (pub priv : Nat)
  | signResult (hash size : Nat)
  | chunk (bytes : List Nat)
deriving DecidableEq

/-- Device-session state threaded through a build: the remaining reply
script and the trace of commands sent so far. -/
structure DevState where
  script : List (Except Nat Reply)
  trace : List Cmd

/-- One exchange with the device: the command is appended to the trace (the
APDU is emitted before the reply arrives) and the next scripted reply is
consumed; an exhausted script is a transport failure (code
`ERR_UNKNOWN_ERROR = 17476`). -/
def callDevice (c : Cmd) (σ : DevState) : Except Nat Reply × DevState :=
  match σ.script with
  | [] => (.error 17476, { script := [], trace := σ.trace ++ [c] })
  | r :: rest => (r, { script := rest, trace := σ.trace ++ [c] })

/-- Computation of the builder over the device session: state passing over
`DevState` with `NErr` failure that preserves the state (a JS exception
does not undo already-exchanged APDUs). -/
def DevM (α : Type) : Type := DevState → Except NErr α × DevState

/-- Pure result. -/
def dpure {α : Type} (a : α) : DevM α := fun σ => (.ok a, σ)

/-- Raised error. -/
def dthrow {α : Type} (e : NErr) : DevM α := fun σ => (.error e, σ)

/-- Sequencing: an error short-circuits, keeping the session state. -/
def dbind {α β : Type} (x : DevM α) (f : α → DevM β) : DevM β := fun σ =>
  match x σ with
  | (.ok a, σ1) => f a σ1
  | (.error e, σ1) => (.error e, σ1)

/-- Exchange surfacing a scripted error status as `DeviceProtocolError`. -/
def ledgerExchange (c : Cmd) : DevM Reply := fun σ =>
  match callDevice c σ with
  | (.ok r, σ1) => (.ok r, σ1)
  | (.error code, σ1) => (.error (.deviceProtocol code), σ1)

/-- `LedgerDevice.getRandomKeyPair` (`RANDOM_KEY_PAIR`); a reply of the
wrong shape is a protocol failure. -/
def getRandomKeyPairM : DevM (Nat × Nat) :=
  dbind (ledgerExchange .randomKeyPair) fun r =>
    match r with
    | .keyPair pub priv => dpure (pub, priv)
    | _ => dthrow (.deviceProtocol 17476)

/-- `LedgerDevice.transactionState` (`TX_STATE`). -/
def transactionStateM : DevM Nat :=
  dbind (ledgerExchange .txState) fun r =>
    match r with
    | .state s => dpure s
    | _ => dthrow (.deviceProtocol 17476)

/-- `LedgerDevice.startTransaction` (`TX_START`, LedgerDevice.js lines
586-616): the input and output counts are validated locally before the
exchange; the unlock time, transaction public key and optional payment id
are carried in the request and play no further role here. -/
def startTransactionM (unlock nIn nOut txPub : Nat) (pid : Option Nat) : DevM Unit :=
  fun σ =>
    if 90 < nIn then (.error .deviceValidation, σ)
    else if 90 < nOut then (.error .deviceValidation, σ)
    else (dbind (ledgerExchange .txStart) fun _ => dpure ()) σ

/-- `LedgerDevice.startTransactionInputLoad` (`TX_START_INPUT_LOAD`). -/
def startTransactionInputLoadM : DevM Unit :=
  dbind (ledgerExchange .txStartInputLoad) fun _ => dpure ()

/-- `LedgerDevice.startTransactionOutputLoad` (`TX_START_OUTPUT_LOAD`). -/
def startTransactionOutputLoadM : DevM Unit :=
  dbind (ledgerExchange .txStartOutputLoad) fun _ => dpure ()

/-- `LedgerDevice.finalizeTransactionPrefix` (`TX_FINALIZE_TX_PREFIX`). -/
def finalizeTransactionPfxM : DevM Unit :=
  dbind (ledgerExchange .txFinalizePfx) fun _ => dpure ()

/-- `LedgerDevice.loadTransactionInput` (`TX_LOAD_INPUT`, LedgerDevice.js
lines 634-676): local validations in source order (the hex checks are
elided as keys are abstract), then the exchange; the ring holds exactly 4
keys and 4 offsets. -/
def loadTransactionInputM (maxOut inputOutputIndex amount : Nat)
    (keys offsets : List Nat) (realIdx : Nat) : DevM Unit := fun σ =>
  if 255 < inputOutputIndex then (.error .deviceValidation, σ)
  else if maxOut < amount then (.error .deviceValidation, σ)
  else if keys.length ≠ 4 then (.error .deviceValidation, σ)
  else if offsets.length ≠ 4 then (.error .deviceValidation, σ)
  else if offsets.any (fun o => 4294967295 < o) then (.error .deviceValidation, σ)
  else if 3 < realIdx then (.error .deviceValidation, σ)
  else (dbind (ledgerExchange .txLoadInput) fun _ => dpure ()) σ

/-- `LedgerDevice.loadTransactionOutput` (`TX_LOAD_OUTPUT`, LedgerDevice.js
lines 691-703). -/
def loadTransactionOutputM (maxOut amount key : Nat) : DevM Unit := fun σ =>
  if maxOut < amount then (.error .deviceValidation, σ)
  else (dbind (ledgerExchange .txLoadOutput) fun _ => dpure ()) σ

/-- `LedgerDevice.signTransaction` (`TX_SIGN`), returning the hash and
size. -/
def signTransactionM : DevM (Nat × Nat) :=
  dbind (ledgerExchange .txSign) fun r =>
    match r with
    | .signResult h s => dpure (h, s)
    | _ => dthrow (.deviceProtocol 17476)

/-- `LedgerDevice.retrieveTransaction` loop (`TX_DUMP`, LedgerDevice.js
lines 728-742): dump until an empty chunk arrives or the accumulated
length reaches `maximumLedgerTransactionSize`.  The fuel argument
(instantiated above the size bound) totalises the JS while-loop. -/
def dumpLoop (maxSize : Nat) : Nat → List Nat → DevM (List Nat)
  | 0, acc => dpure acc
  | fuel + 1, acc => fun σ =>
    if maxSize ≤ acc.length then (.ok acc, σ)
    else (dbind (ledgerExchange .txDump) fun r =>
      match r with
      | .chunk [] => dpure acc
      | .chunk bs => dumpLoop maxSize fuel (acc ++ bs)
      | _ => dthrow (.deviceProtocol 17476)) σ

/-- A prepared destination output (`Interfaces.PreparedOutput`). -/
structure PreparedOutput where
  amount : Nat
  key : Nat
deriving DecidableEq

/-- Input-loading loop of `createTransaction` (LedgerNote.ts lines
644-658): each prepared input's ring indexes are converted to relative
offsets (via `absoluteToRelativeOffsets`) before `TX_LOAD_INPUT`. -/
def loadInputsLoop (maxOut : Nat) : List PreparedInput → DevM Unit
  | [] => dpure ()
  | inp :: rest =>
    dbind (loadTransactionInputM maxOut inp.input.transactionKeys.outputIndex inp.amount
      (inp.outputs.map (fun o => o.key))
      (absoluteToRelativeOffsets (inp.outputs.map (fun o => o.index)))
      inp.realOutputIndex) fun _ => loadInputsLoop maxOut rest

/-- Output-loading loop of `createTransaction` (LedgerNote.ts lines
670-672). -/
def loadOutputsLoop (maxOut : Nat) : List PreparedOutput → DevM Unit
  | [] => dpure ()
  | o :: rest =>
    dbind (loadTransactionOutputM maxOut o.amount o.key) fun _ => loadOutputsLoop maxOut rest

/-- Abstraction of the external `Transaction.from` decoder combined with
`.hash()` and `.size`: dumped bytes to hash and size, `none` when parsing
throws. -/
def TxDecoder : Type := List Nat → Option (Nat × Nat)

/-- Body of the `try` block of `createTransaction` (LedgerNote.ts lines
626-700): `TX_START`, verify state `READY = 1`; `TX_START_INPUT_LOAD`,
verify `RECEIVING_INPUTS = 2`; load every input; verify
`INPUTS_RECEIVED = 3`; `TX_START_OUTPUT_LOAD`, verify
`RECEIVING_OUTPUTS = 4`; load every output; verify `OUTPUTS_RECEIVED = 5`;
`TX_FINALIZE_TX_PREFIX`, verify `PREFIX_READY = 6`; `TX_SIGN`, verify
`COMPLETE = 7`; retrieve and decode the transaction and verify its hash
and size against the sign result. -/
def createTxTryBody (maxOut maxLedgerTxSize : Nat) (decode : TxDecoder)
    (unlock txPub : Nat) (pid : Option Nat)
    (tIns : List PreparedInput) (tOuts : List PreparedOutput) : DevM (Nat × Nat) :=
  dbind (startTransactionM unlock tIns.length tOuts.length txPub pid) fun _ =>
  dbind transactionStateM fun s1 =>
  if s1 ≠ 1 then dthrow (.unexpectedState 1) else
  dbind startTransactionInputLoadM fun _ =>
  dbind transactionStateM fun s2 =>
  if s2 ≠ 2 then dthrow (.unexpectedState 2) else
  dbind (loadInputsLoop maxOut tIns) fun _ =>
  dbind transactionStateM fun s3 =>
  if s3 ≠ 3 then dthrow (.unexpectedState 3) else
  dbind startTransactionOutputLoadM fun _ =>
  dbind transactionStateM fun s4 =>
  if s4 ≠ 4 then dthrow (.unexpectedState 4) else
  dbind (loadOutputsLoop maxOut tOuts) fun _ =>
  dbind transactionStateM fun s5 =>
  if s5 ≠ 5 then dthrow (.unexpectedState 5) else
  dbind finalizeTransactionPfxM fun _ =>
  dbind transactionStateM fun s6 =>
  if s6 ≠ 6 then dthrow (.unexpectedState 6) else
  dbind signTransactionM fun hs =>
  dbind transactionStateM fun s7 =>
  if s7 ≠ 7 then dthrow (.unexpectedState 7) else
  dbind (dumpLoop maxLedgerTxSize (maxLedgerTxSize + 1) []) fun bytes =>
  match decode bytes with
  | none => dthrow .decodeFailed
  | some (h, sz) =>
    if h ≠ hs.1 then dthrow .hashMismatch
    else if sz ≠ hs.2 then dthrow .sizeMismatch
    else dpure (h, sz)

/-- The `try`/`finally` of `createTransaction` (LedgerNote.ts lines
626-703): whatever the try body does, `resetTransaction` (`TX_RESET`) is
issued afterwards; a failing reset exchange supersedes the body's outcome
(JS `finally` semantics). -/
def createTxDevicePhase (maxOut maxLedgerTxSize : Nat) (decode : TxDecoder)
    (unlock txPub : Nat) (pid : Option Nat)
    (tIns : List PreparedInput) (tOuts : List PreparedOutput) : DevM (Nat × Nat) :=
  fun σ =>
    let r := createTxTryBody maxOut maxLedgerTxSize decode unlock txPub pid tIns tOuts σ
    let rr := callDevice .txReset r.2
    (match rr.1 with
     | .error code => .error (.deviceProtocol code)
     | .ok _ => r.1,
     rr.2)

/-- Configuration values read by `createTransaction`; `fusionMinInOutRq`
is the key the source calls `fusionMinInOutCountRatio`. -/
structure BuildConfig where
  defaultNetworkFee : Nat
  activateFeePerByteTransactions : Bool
  maximumOutputAmount : Nat
  maximumOutputsPerTransaction : Nat
  fusionMinInputCount : Nat
  fusionMinInOutRq : ℚ
  maximumLedgerTransactionSize : Nat

/-- A destination address: the embedded payment id and the two public
keys. -/
structure DestinationAddress where
  paymentId : Option Nat
  viewPublic : Nat
  spendPublic : Nat
deriving DecidableEq

/-- A requested destination (`Interfaces.GeneratedOutput`). -/
structure GeneratedOutput where
  amount : Nat
  destination : DestinationAddress
deriving DecidableEq

/-- Destination validation loop of `createTransaction` (LedgerNote.ts lines
547-567): per-output amount bounds, the running `neededMoney` total with
its `UINT64_MAX` overflow check (the source compares with strict
`greater`), and the integrated payment id collection with its conflict
check. -/
def collectOutputs (maxOut : Nat) :
    List GeneratedOutput → Nat → Option Nat → Except NErr (Nat × Option Nat)
  | [], needed, pid => .ok (needed, pid)
  | o :: rest, needed, pid =>
    if o.amount = 0 then .error .outputAmountZero
    else if maxOut < o.amount then .error .outputAmountTooLarge
    else if 2 ^ 64 < needed + o.amount then .error .exceedsUintMax
    else
      match o.destination.paymentId, pid with
      | some p, none => collectOutputs maxOut rest (needed + o.amount) (some p)
      | some p, some q =>
        if q ≠ p then .error .pidConflictDiffering
        else collectOutputs maxOut rest (needed + o.amount) (some q)
      | none, _ => collectOutputs maxOut rest (needed + o.amount) pid

/-- Input validation loop of `createTransaction` (LedgerNote.ts lines
578-586): positive amounts and the running `foundMoney` total with its
overflow check. -/
def collectInputs : List Output → Nat → Except NErr Nat
  | [], found => .ok found
  | i :: rest, found =>
    if i.amount = 0 then .error .spendAmountZero
    else if 2 ^ 64 < found + i.amount then .error .exceedsUintMax
    else collectInputs rest (found + i.amount)

/-- Comparator of the destination sort (LedgerNote.ts line 918): ascending
by amount. -/
def genOutLE (a b : GeneratedOutput) : Prop := a.amount ≤ b.amount

instance : DecidableRel genOutLE := fun a b => Nat.decLe a.amount b.amount

instance : IsTotal GeneratedOutput genOutLE := ⟨fun a b => Nat.le_total a.amount b.amount⟩

instance : IsTrans GeneratedOutput genOutLE := ⟨fun _ _ _ => Nat.le_trans⟩

/-- Per-destination stealth key derivation of `prepareTransactionOutputs`
(LedgerNote.ts lines 899-931): for destination `i`, derive
`D = KDF(destination.view.public, tx_private)` and the stealth key from
`(D, i, destination.spend.public)`; a non-positive amount raises. -/
def prepareOutputsLoop (C : CryptoProvider) (privKey : Nat) :
    List GeneratedOutput → Nat → Except NErr (List PreparedOutput)
  | [], _ => .ok []
  | o :: rest, i =>
    if o.amount = 0 then .error .outputAmountZero
    else
      match prepareOutputsLoop C privKey rest (i + 1) with
      | .error e => .error e
      | .ok ps =>
        .ok ({ amount := o.amount,
               key := C.derivePublicKey
                 (C.generateKeyDerivation o.destination.viewPublic privKey)
                 i o.destination.spendPublic } :: ps)

/-- Model of `prepareTransactionOutputs` (LedgerNote.ts lines 895-937):
sort the destinations ascending by amount, then derive each stealth key. -/
def prepareTransactionOutputsModel (C : CryptoProvider) (privKey : Nat)
    (outputs : List GeneratedOutput) : Except NErr (List PreparedOutput) :=
  prepareOutputsLoop C privKey (List.insertionSort genOutLE outputs) 0

/-- Conflict between an integrated payment id found in the destinations and
an explicitly supplied payment id (LedgerNote.ts lines 571-574). -/
def pidMismatchCheck (integrated explicit : Option Nat) : Bool :=
  match integrated, explicit with
  | some p, some q => p != q
  | _, _ => false

/-- Model of `LedgerNote.createTransaction` (LedgerNote.ts lines 512-704):
every validation before the `try` block in source order — `extraData`
rejection, fee defaulting, random set matching, destination and input
validation, payment id consistency, sufficient funds, the change-vs-fee
check (skipped in fee-per-byte mode), input preparation, the device
`RANDOM_KEY_PAIR`, output preparation, the output count bound and the
fusion checks — and then the device-driving `try`/`finally`
(`createTxDevicePhase`) on the key-image-sorted inputs.  Note the
`RANDOM_KEY_PAIR` exchange and all validations sit outside the
`try`/`finally`. -/
def createTransactionModel (cfg : BuildConfig) (C : CryptoProvider) (decode : TxDecoder)
    (outputs : List GeneratedOutput) (inputs : List Output)
    (randomOutputs : List (List RandomOutput)) (mixin : Nat)
    (feeAmount paymentId unlockTime : Option Nat)
    (extraData : Bool) : DevM (Nat × Nat) := fun σ =>
  if extraData then (.error .notSupported, σ)
  else
    if randomOutputs.length ≠ inputs.length ∧ mixin ≠ 0 then (.error .randomSetMismatch, σ)
    else if randomOutputs.any (fun s => s.length < mixin) then (.error .notEnoughRandom, σ)
    else
      match collectOutputs cfg.maximumOutputAmount outputs 0 none with
      | .error e => (.error e, σ)
      | .ok (needed, integratedPid) =>
        if pidMismatchCheck integratedPid paymentId then (.error .pidMismatch, σ)
        else
          match collectInputs inputs 0 with
          | .error e => (.error e, σ)
          | .ok found =>
            if found < needed then (.error .insufficientFunds, σ)
            else
              if ¬cfg.activateFeePerByteTransactions ∧
                  feeAmount.getD cfg.defaultNetworkFee ≠ 0 ∧
                  found - needed < feeAmount.getD cfg.defaultNetworkFee then
                (.error .feeExceedsChange, σ)
              else
                match prepareTransactionInputs inputs randomOutputs mixin with
                | .error e => (.error e, σ)
                | .ok transactionInputs =>
                  (dbind getRandomKeyPairM fun txKeys => fun σ2 =>
                    match prepareTransactionOutputsModel C txKeys.2 outputs with
                    | .error e => (.error e, σ2)
                    | .ok transactionOutputs =>
                      if cfg.maximumOutputsPerTransaction < transactionOutputs.length then
                        (.error .tooManyOutputs, σ2)
                      else
                        match fusionChecks cfg.fusionMinInputCount cfg.fusionMinInOutRq
                            (feeAmount.getD cfg.defaultNetworkFee)
                            transactionInputs.length transactionOutputs.length with
                        | .error e => (.error e, σ2)
                        | .ok _ =>
                          createTxDevicePhase cfg.maximumOutputAmount
                            cfg.maximumLedgerTransactionSize decode
                            (unlockTime.getD 0) txKeys.1 paymentId
                            (sortPreparedInputs transactionInputs)
                            transactionOutputs σ2) σ

end LedgerSpec

namespace LedgerSpec

/-! ## Helper lemmas for C9 -/

theorem absGo_relGo (rest : List Nat) : ∀ prev : Nat,
    List.Chain' (· ≤ ·) (prev :: rest) → absGo prev (relGo prev rest) = rest := by
  induction rest with
  | nil => intro prev _; rfl
  | cons x xs ih =>
    intro prev h
    rcases List.chain'_cons.mp h with ⟨hle, htail⟩
    rw [relGo, absGo, Nat.add_sub_cancel' hle, ih x htail]

/-! ## Helper lemmas for C1 -/

theorem ofDigitsLE_toDigitsLE (n : Nat) : ofDigitsLE (toDigitsLE n) = n := by
  induction n using Nat.strong_induction_on with
  | _ n ih =>
    rw [toDigitsLE]
    split
    next h => simp [h, ofDigitsLE]
    next h =>
      rw [ofDigitsLE, ih (n / 10) (Nat.div_lt_self (Nat.pos_of_ne_zero h) (by decide))]
      exact Nat.mod_add_div n 10

theorem toDigitsLE_lt_ten (n : Nat) : ∀ d ∈ toDigitsLE n, d < 10 := by
  induction n using Nat.strong_induction_on with
  | _ n ih =>
    rw [toDigitsLE]
    split
    next => intro d hd; cases hd
    next h =>
      intro d hd
      rcases List.mem_cons.mp hd with h1 | h2
      · exact h1 ▸ Nat.mod_lt _ (by decide)
      · exact ih (n / 10) (Nat.div_lt_self (Nat.pos_of_ne_zero h) (by decide)) d h2

theorem splitLoop_sum (maxOut : Nat) (hmax : 0 < maxOut) :
    ∀ amt : Nat, (splitLoop maxOut amt).sum = amt - amt % maxOut := by
  intro amt
  induction amt using Nat.strong_induction_on with
  | _ amt ih =>
    rw [splitLoop]
    split
    next h =>
      rw [List.sum_cons, ih (amt - maxOut) (Nat.sub_lt (Nat.lt_of_lt_of_le h.1 h.2) h.1)]
      have hle : maxOut ≤ amt := h.2
      have e1 : amt % maxOut = (amt - maxOut) % maxOut := by
        conv_lhs => rw [← Nat.sub_add_cancel hle]
        exact Nat.add_mod_right _ _
      have e2 : (amt - maxOut) % maxOut ≤ amt - maxOut := Nat.mod_le _ _
      omega
    next h =>
      have hlt : amt < maxOut := by
        rcases Nat.lt_or_ge amt maxOut with h1 | h1
        · exact h1
        · exact absurd ⟨hmax, h1⟩ h
      simp [Nat.mod_eq_of_lt hlt]

theorem splitLoop_mem (maxOut : Nat) :
    ∀ amt x : Nat, x ∈ splitLoop maxOut amt → x = maxOut ∧ 0 < maxOut := by
  intro amt
  induction amt using Nat.strong_induction_on with
  | _ amt ih =>
    intro x hx
    rw [splitLoop] at hx
    split at hx
    next h =>
      rcases List.mem_cons.mp hx with h1 | h2
      · exact ⟨h1, h.1⟩
      · exact ih (amt - maxOut) (Nat.sub_lt (Nat.lt_of_lt_of_le h.1 h.2) h.1) x h2
    next => cases hx

theorem genPieces_head_sum (m d k : Nat) (hd10 : d < 10) :
    (if 10 ^ m < d * 10 ^ k then splitLoop (10 ^ m) (d * 10 ^ k)
     else if d * 10 ^ k ≠ 0 then [d * 10 ^ k]
     else []).sum = d * 10 ^ k := by
  split
  next hgt =>
    have hk : m ≤ k := by
      by_contra hmk
      push_neg at hmk
      have hlt : d * 10 ^ k < 10 ^ m := by
        calc d * 10 ^ k < 10 * 10 ^ k := by
              exact Nat.mul_lt_mul_of_lt_of_le hd10 (Nat.le_refl _) (Nat.pos_pow_of_pos k (by decide))
          _ = 10 ^ (k + 1) := by ring
          _ ≤ 10 ^ m := Nat.pow_le_pow_right (by decide) hmk
      omega
    have hdvd : 10 ^ m ∣ d * 10 ^ k := Dvd.dvd.mul_left (pow_dvd_pow 10 hk) d
    rw [splitLoop_sum _ (Nat.pos_pow_of_pos m (by decide)),
        Nat.mod_eq_zero_of_dvd hdvd, Nat.sub_zero]
  next =>
    split
    next => simp
    next hz =>
      push_neg at hz
      simp [hz]

theorem genPieces_sum (m : Nat) :
    ∀ (ds : List Nat) (k : Nat), (∀ d ∈ ds, d < 10) →
      (genPieces (10 ^ m) ds k).sum = 10 ^ k * ofDigitsLE ds := by
  intro ds
  induction ds with
  | nil => intro k _; simp [genPieces, ofDigitsLE]
  | cons d ds ih =>
    intro k hd
    rw [genPieces, List.sum_append, ofDigitsLE,
        ih (k + 1) (fun x hx => hd x (List.mem_cons_of_mem _ hx)),
        genPieces_head_sum m d k (hd d (List.mem_cons_self _ _))]
    ring

theorem genPieces_shape (maxOut : Nat) :
    ∀ (ds : List Nat) (k : Nat), (∀ d ∈ ds, d < 10) →
      ∀ x ∈ genPieces maxOut ds k,
        0 < x ∧ ((∃ d e, 1 ≤ d ∧ d ≤ 9 ∧ x = d * 10 ^ e) ∨ x = maxOut) := by
  intro ds
  induction ds with
  | nil => intro k _ x hx; cases hx
  | cons d ds ih =>
    intro k hd x hx
    rw [genPieces] at hx
    rcases List.mem_append.mp hx with h1 | h2
    · split at h1
      next hgt =>
        rcases splitLoop_mem maxOut _ x h1 with ⟨hx1, hpos⟩
        subst hx1
        exact ⟨hpos, Or.inr rfl⟩
      next =>
        split at h1
        next hz =>
          rcases List.mem_singleton.mp h1 with h1
          subst h1
          refine ⟨Nat.pos_of_ne_zero hz, Or.inl ⟨d, k, ?_, ?_, rfl⟩⟩
          · rcases Nat.eq_zero_or_pos d with hd0 | hd0
            · subst hd0; simp at hz
            · exact hd0
          · exact Nat.lt_succ_iff.mp (hd d (List.mem_cons_self _ _))
        next => cases h1
    · exact ih (k + 1) (fun y hy => hd y (List.mem_cons_of_mem _ hy)) x h2

/-! ## Claim theorems: C9 and C1 -/

/-- C9: for every ascending sequence `a` of absolute offsets,
`relativeToAbsoluteOffsets (absoluteToRelativeOffsets a) = a`: converting
absolute offsets to relative (first element unchanged, each subsequent
element the difference from its predecessor) and back (prefix sum) is the
identity. -/
theorem claim_C9 (a : List Nat) (h : List.Chain' (· ≤ ·) a) :
    relativeToAbsoluteOffsets (absoluteToRelativeOffsets a) = a := by
  cases a with
  | nil => rfl
  | cons x rest =>
    rw [absoluteToRelativeOffsets, relativeToAbsoluteOffsets, absGo, Nat.zero_add,
        absGo_relGo rest x h]

/-- Witness for C9 at the spec's scenario S3 offsets `[5, 9, 14, 14, 20]`. -/
theorem claim_C9_witness :
    relativeToAbsoluteOffsets (absoluteToRelativeOffsets [5, 9, 14, 14, 20]) =
      [5, 9, 14, 14, 20] :=
  claim_C9 [5, 9, 14, 14, 20] (by norm_num [List.chain'_cons])

/-- C1 (amended): for every amount `N` and every configured
`maximumOutputAmount`, every produced amount is positive (zero digit pieces
are omitted) and is either of the form `d * 10 ^ k` with `1 ≤ d ≤ 9` or
equal to the configured `maximumOutputAmount` — this shape conjunct holds
unconditionally; and when the configured cap is a power of ten (as in the
spec's scenarios) the produced amounts additionally sum exactly to `N`.
The original claim's unconditional sum statement fails for caps that do
not divide every oversized digit piece, because the source drops the
remainder of the greedy split (see the counterexample). -/
theorem claim_C1 (maxOut amount : Nat) :
    (∀ x ∈ generateTransactionOutputs maxOut amount,
      0 < x ∧ ((∃ d e, 1 ≤ d ∧ d ≤ 9 ∧ x = d * 10 ^ e) ∨ x = maxOut)) ∧
    (∀ m : Nat, maxOut = 10 ^ m →
      (generateTransactionOutputs maxOut amount).sum = amount) := by
  constructor
  · exact genPieces_shape maxOut _ 0 (toDigitsLE_lt_ten amount)
  · intro m hmax
    subst hmax
    rw [generateTransactionOutputs, genPieces_sum m _ 0 (toDigitsLE_lt_ten amount),
        pow_zero, Nat.one_mul, ofDigitsLE_toDigitsLE]

/-- Witness for C1 at the spec's scenario S4: cap `100000 = 10 ^ 5`,
amount `123`. -/
theorem claim_C1_witness :
    (∀ x ∈ generateTransactionOutputs 100000 123,
      0 < x ∧ ((∃ d e, 1 ≤ d ∧ d ≤ 9 ∧ x = d * 10 ^ e) ∨ x = 100000)) ∧
    (generateTransactionOutputs 100000 123).sum = 123 :=
  ⟨(claim_C1 100000 123).1, (claim_C1 100000 123).2 5 (by norm_num)⟩

/-- Counterexample to C1 as stated: with `maximumOutputAmount = 70000` the
single digit piece `1 * 10 ^ 5` of `amount = 100000` exceeds the cap, the
greedy split emits one chunk of `70000`, and the remainder `30000` is
dropped, so the produced amounts sum to `70000`, not `100000`. -/
theorem claim_C1_cex :
    (generateTransactionOutputs 70000 100000).sum ≠ 100000 := by
  have h1 : toDigitsLE 100000 = [0, 0, 0, 0, 0, 1] := by
    rw [toDigitsLE]; norm_num
    rw [toDigitsLE]; norm_num
    rw [toDigitsLE]; norm_num
    rw [toDigitsLE]; norm_num
    rw [toDigitsLE]; norm_num
    rw [toDigitsLE]; norm_num
    rw [toDigitsLE]; norm_num
  have h2 : splitLoop 70000 100000 = [70000] := by
    rw [splitLoop]; norm_num
    rw [splitLoop]; norm_num
  rw [generateTransactionOutputs, h1]
  simp only [genPieces]
  norm_num [h2]

/-! ## Claim theorems: C3, C4, C5 -/

/-- C3 (amended): the Device Client validates hex parameters
case-insensitively, not as lowercase-only.  For every string that is not
exactly 64 hex characters of either case (respectively not exactly 128 hex
characters for the signature parameter), the operation fails with
`InvalidArgument` before any transport exchange occurs (the `Except.error`
result is produced before `exchangeRequest` is ever reached).  The original
claim's "lowercase" reading fails: see the counterexample, where a 64
character uppercase string is accepted. -/
theorem claim_C3 (s txPub outputKey k : List Char) :
    (isHex64 s = false →
      checkKey s = .error .invalidArgument ∧
      checkScalar s = .error .invalidArgument ∧
      privateToPublic s = .error .invalidArgument ∧
      generateSignature s = .error .invalidArgument ∧
      ∀ idx : Nat, generateKeyImageDevice s idx outputKey = .error .invalidArgument) ∧
    (isHex64 txPub = true → isHex64 outputKey = true → isHex64 k = true →
      ∀ (sig : List Char) (idx : Nat), isHex128 sig = false →
        completeRingSignature txPub idx outputKey k sig = .error .invalidArgument) := by
  constructor
  · intro hs
    refine ⟨?_, ?_, ?_, ?_, ?_⟩ <;>
      simp [checkKey, checkScalar, privateToPublic, generateSignature,
        generateKeyImageDevice, hs]
  · intro h1 h2 h3 sig idx h4
    simp [completeRingSignature, h1, h2, h3, h4]

/-- Witness for C3 (amended) at concrete malformed inputs: an empty key and
an empty (hence not 128-hex) signature. -/
theorem claim_C3_witness :
    checkKey [] = Except.error DeviceError.invalidArgument ∧
    completeRingSignature (List.replicate 64 'a') 0 (List.replicate 64 'a')
      (List.replicate 64 'a') [] = Except.error DeviceError.invalidArgument :=
  ⟨((claim_C3 [] [] [] []).1 (by decide)).1,
   (claim_C3 [] (List.replicate 64 'a') (List.replicate 64 'a')
      (List.replicate 64 'a')).2 (by decide) (by decide) (by decide) [] 0 (by decide)⟩

/-- Counterexample to C3 as stated: the string of 64 uppercase `A`
characters is not a string of 64 lowercase hex characters, yet `checkKey`
does not fail with `InvalidArgument` — the source's `isHex` accepts
`[0-9a-fA-F]`, so the request (32 bytes of `0xAA` behind the APDU header)
is framed and sent to the device. -/
theorem claim_C3_cex :
    isLowerHex64Spec (List.replicate 64 'A') = false ∧
    checkKey (List.replicate 64 'A') =
      Except.ok ([224, 22, 1, 0, 0, 32] ++ List.replicate 32 170) := by
  constructor
  · decide
  · rfl

/-- C4: for every device command, the request bytes produced by the Device
Client are exactly `CLA = 0xE0`, the command's `INS` byte, `P1` (`0x01`
when confirmation is requested, else `0x00`), `P2 = 0x00`, the u16
big-endian length of the data, then the data itself; and every data payload
longer than `512 - 6` bytes is rejected locally with `PayloadTooLarge`
(nothing is sent: the error is raised before the send event and the
transport call). -/
theorem claim_C4 (command : Nat) (confirm : Bool) (d : List Nat)
    (hc : command < 256) :
    (d.length ≤ 506 →
      exchangeRequest command confirm (some d) =
        .ok ([224, command, if confirm then 1 else 0, 0] ++ u16be d.length ++ d)) ∧
    (506 < d.length →
      exchangeRequest command confirm (some d) = .error .payloadTooLarge) ∧
    exchangeRequest command confirm none =
      .ok ([224, command, if confirm then 1 else 0, 0] ++ u16be 0) := by
  have hcm : command % 256 = command := Nat.mod_eq_of_lt hc
  have hp1 : (if confirm then 1 else 0) % 256 = (if confirm then 1 else 0 : Nat) := by
    cases confirm <;> norm_num
  refine ⟨?_, ?_, ?_⟩
  · intro hlen
    simp only [exchangeRequest]
    rw [if_neg (by omega : ¬ (512 - 6 < d.length))]
    norm_num [hcm, hp1]
  · intro hlen
    simp only [exchangeRequest]
    rw [if_pos (by omega : 512 - 6 < d.length)]
  · simp only [exchangeRequest]
    norm_num [hcm, hp1, u16be]

/-- Witness for C4 at the `CHECK_KEY` command with a 32-byte payload. -/
theorem claim_C4_witness :
    exchangeRequest 22 true (some (List.replicate 32 0)) =
      .ok ([224, 22, 1, 0] ++ u16be (List.replicate 32 (0 : Nat)).length ++
        List.replicate 32 0) := by
  simpa using (claim_C4 22 true (List.replicate 32 0) (by norm_num)).1 (by simp)

/-- C5: for every device response, if the trailing two-byte big-endian
status word is not `0x9000` then the exchange fails with
`DeviceProtocolError`, whose surfaced code is the first two bytes of the
response body (read big-endian) when the body is at least two bytes long
and otherwise the status word itself; when the status word is `0x9000` the
body is returned to the caller unchanged. -/
theorem claim_C5 (body : List Nat) (s1 s2 : Nat) :
    (256 * s1 + s2 = 36864 →
      exchangeResponse (body ++ [s1, s2]) = .ok body) ∧
    (256 * s1 + s2 ≠ 36864 →
      exchangeResponse (body ++ [s1, s2]) =
        .error (.deviceProtocolError
          (if 2 ≤ body.length then readU16BE body else 256 * s1 + s2))) := by
  have hlen : (body ++ [s1, s2]).length = body.length + 2 := by simp
  have hdrop : (body ++ [s1, s2]).drop ((body ++ [s1, s2]).length - 2) = [s1, s2] := by
    rw [hlen, Nat.add_sub_cancel]
    exact List.drop_left body [s1, s2]
  have htake : (body ++ [s1, s2]).take ((body ++ [s1, s2]).length - 2) = body := by
    rw [hlen, Nat.add_sub_cancel]
    exact List.take_left body [s1, s2]
  have hread : readU16BE [s1, s2] = 256 * s1 + s2 := rfl
  constructor
  · intro h
    rw [exchangeResponse, hdrop, htake, hread, if_neg (not_not_intro h)]
  · intro h
    rw [exchangeResponse, hdrop, htake, hread, if_pos h]

/-- Witness for C5: the spec's scenario S1 reply `01 02 03 9000` decodes to
the body `[1, 2, 3]`. -/
theorem claim_C5_witness :
    exchangeResponse [1, 2, 3, 144, 0] = .ok [1, 2, 3] :=
  (claim_C5 [1, 2, 3] 144 0).1 (by norm_num)

/-! ## Claim theorems: C6, C2, C10 -/

/-- C6: when `createTransaction` runs with `feeAmount = 0` and at least one
prepared output, the fusion checks pass exactly when the number of prepared
inputs is at least the literal constant `12` — for every configured
`fusionMinInputCount`, which appears only in the quoted error value — and
the input:output count ratio is at least the configured
`fusionMinInOutCountRatio`. -/
theorem claim_C6 (cfgFusionMinInputCount : Nat) (minRq : ℚ) (nInputs nOutputs : Nat)
    (hpos : 0 < nOutputs) :
    (fusionChecks cfgFusionMinInputCount minRq 0 nInputs nOutputs = .ok () ↔
      12 ≤ nInputs ∧ minRq ≤ (nInputs : ℚ) / (nOutputs : ℚ)) ∧
    (nInputs < 12 →
      fusionChecks cfgFusionMinInputCount minRq 0 nInputs nOutputs =
        .error (.fusionInputCount cfgFusionMinInputCount)) := by
  constructor
  · constructor
    · intro h
      rw [fusionChecks, if_pos rfl] at h
      by_cases h12 : nInputs < 12
      · rw [if_pos h12] at h; cases h
      · rw [if_neg h12] at h
        refine ⟨Nat.le_of_not_lt h12, ?_⟩
        by_cases hr : ((nInputs : ℚ) / (nOutputs : ℚ)) < minRq
        · rw [if_pos ⟨hpos, hr⟩] at h; cases h
        · exact le_of_not_lt hr
    · rintro ⟨h12, hr⟩
      rw [fusionChecks, if_pos rfl, if_neg (Nat.not_lt_of_le h12),
        if_neg (by rintro ⟨-, hlt⟩; exact absurd hlt (not_lt_of_le hr))]
  · intro h12
    rw [fusionChecks, if_pos rfl, if_pos h12]

/-- Witness for C6: with any configured `fusionMinInputCount` (here 33),
minimum ratio 4, 12 inputs and 3 outputs, the fusion checks pass. -/
theorem claim_C6_witness :
    fusionChecks 33 4 0 12 3 = .ok () :=
  ((claim_C6 33 4 12 3 (by norm_num)).1).mpr (by norm_num)

/-- C2 (code bug): `scanTransactionOutputs` is supposed to skip outputs
failing the ownership predicate and collect the rest in input order, but
the source chains `.catch()` with no handler, which does not swallow the
rejection; `Promise.all` therefore rejects with the first `Not our output`
error.  At the concrete failing input — one output whose key `1` differs
from the derived public ephemeral `0` — the scan raises `NotOurOutput`
instead of resolving with the empty list. -/
theorem claim_C2_bug :
    scanTransactionOutputs
      { generateKeyDerivation := fun _ _ => 0,
        derivePublicKey := fun _ _ _ => 0,
        cnFastHash := fun _ => 0 }
      { generateKeyImagePrimitive := fun _ _ _ => 0,
        generateSignature := fun _ => 0 }
      { viewPrivate := 0, spendPublic := 0 }
      0
      [{ amount := 1, index := 0, globalIndex := 0, key := 1,
         keyImage := none, input := none }]
      0 0 none false
      = Except.error NErr.notOurOutput := rfl

/-- C10: the key-material arguments accepted for host-side compatibility
are ignored.  For any two values of `privateViewKey`, `publicSpendKey` and
`privateSpendKey` (all other arguments and device state equal),
`generateKeyImage` and `isOurTransactionOutput` produce identical results —
and identical device requests, since the oracle is applied to identical
arguments — and for any two values of `privateKey`, `signMessage` produces
identical results; the device-held keys are used instead. -/
theorem claim_C10 (C : CryptoProvider) (dev : DeviceOracle) (K : DeviceKeys)
    (txPub idx : Nat) (pv1 pv2 ps1 ps2 pss1 pss2 : Option Nat) (o : Output)
    (gp : Bool) (msg : List Nat) (sk1 sk2 : Option Nat) :
    generateKeyImageNote C dev K txPub pv1 ps1 pss1 idx =
      generateKeyImageNote C dev K txPub pv2 ps2 pss2 idx ∧
    isOurTransactionOutput C dev K txPub o pv1 ps1 pss1 gp =
      isOurTransactionOutput C dev K txPub o pv2 ps2 pss2 gp ∧
    signMessage C dev msg sk1 = signMessage C dev msg sk2 :=
  ⟨rfl, rfl, rfl⟩

/-! ## Helper lemmas for C7 -/

theorem selectFakes_spec (gi mixin : Nat) :
    ∀ (fakes : List RandomOutput) (acc : List PreparedInputOutput),
      ∃ t, selectFakes gi mixin fakes acc = acc ++ t ∧
        (t.map PreparedInputOutput.index).Sublist (fakes.map RandomOutput.globalIndex) ∧
        (∀ o ∈ t, o.index ≠ gi) ∧
        (acc.length ≤ mixin → acc.length + t.length ≤ mixin) := by
  intro fakes
  induction fakes with
  | nil =>
    intro acc
    exact ⟨[], by simp [selectFakes], by simp, by simp, by simp⟩
  | cons fo rest ih =>
    intro acc
    rw [selectFakes]
    by_cases h1 : acc.length = mixin
    · rw [if_pos h1]
      obtain ⟨t, he, hsub, hne, hlen⟩ := ih acc
      exact ⟨t, he, hsub.cons _, hne, hlen⟩
    · rw [if_neg h1]
      by_cases h2 : fo.globalIndex = gi
      · rw [if_pos h2]
        obtain ⟨t, he, hsub, hne, hlen⟩ := ih acc
        exact ⟨t, he, hsub.cons _, hne, hlen⟩
      · rw [if_neg h2]
        obtain ⟨t, he, hsub, hne, hlen⟩ :=
          ih (acc ++ [{ key := fo.key, index := fo.globalIndex }])
        refine ⟨{ key := fo.key, index := fo.globalIndex } :: t, ?_, ?_, ?_, ?_⟩
        · rw [he, List.append_assoc]; rfl
        · exact hsub.cons₂ _
        · intro o ho
          rcases List.mem_cons.mp ho with h3 | h3
          · subst h3; exact h2
          · exact hne o h3
        · intro hacc
          have hlt : acc.length < mixin := Nat.lt_of_le_of_ne hacc h1
          have := hlen (by simpa using hlt)
          simp only [List.length_append, List.length_cons, List.length_singleton] at this ⊢
          omega

theorem mixedOutputsFor_spec (mixin : Nat) (realOutput : Output)
    (fakesRaw : List RandomOutput) (mixed : List PreparedInputOutput)
    (hfk : List.Pairwise (fun a b : RandomOutput => a.globalIndex ≠ b.globalIndex) fakesRaw)
    (hok : mixedOutputsFor mixin realOutput fakesRaw = .ok mixed) :
    mixed.length = mixin ∧
    (mixed.map PreparedInputOutput.index).Nodup ∧
    ∀ o ∈ mixed, o.index ≠ realOutput.globalIndex := by
  simp only [mixedOutputsFor] at hok
  by_cases hm : mixin = 0
  · rw [if_neg (by simpa using hm)] at hok
    injection hok with hok
    subst hok
    simpa using hm.symm
  · rw [if_pos (by simpa using hm)] at hok
    obtain ⟨t, he, hsub, hne, hlen⟩ :=
      selectFakes_spec realOutput.globalIndex mixin (List.insertionSort fakeLE fakesRaw) []
    simp only [List.nil_append] at he
    rw [he] at hok
    split at hok
    · cases hok
    next hnlt =>
      injection hok with hok
      subst hok
      have hlen2 : t.length = mixin := by
        have h1 := hlen (Nat.zero_le _)
        simp only [List.length_nil, Nat.zero_add] at h1
        omega
      refine ⟨hlen2, ?_, hne⟩
      have hraw : (fakesRaw.map RandomOutput.globalIndex).Nodup :=
        List.pairwise_map.mpr hfk
      have hperm : ((List.insertionSort fakeLE fakesRaw).map RandomOutput.globalIndex).Perm
          (fakesRaw.map RandomOutput.globalIndex) :=
        (List.perm_insertionSort fakeLE fakesRaw).map _
      exact hsub.nodup (hperm.nodup_iff.mpr hraw)

theorem ring_pairwise_lt (l : List PreparedInputOutput)
    (hs : List.Pairwise ringLE l) (hn : (l.map PreparedInputOutput.index).Nodup) :
    List.Pairwise (fun a b : PreparedInputOutput => a.index < b.index) l := by
  have hn2 : List.Pairwise (fun a b : PreparedInputOutput => a.index ≠ b.index) l :=
    List.pairwise_map.mp hn
  exact (hs.and hn2).imp fun h => Nat.lt_of_le_of_ne h.1 h.2

theorem findRealIndexAux_spec (gi : Nat) :
    ∀ (l ring : List PreparedInputOutput) (j acc : Nat),
      ring.drop j = l →
      ((∃ o ∈ l, o.index = gi) ∨ (∃ o, ring[acc]? = some o ∧ o.index = gi)) →
      ∃ o, ring[findRealIndexAux gi l j acc]? = some o ∧ o.index = gi := by
  intro l
  induction l with
  | nil =>
    intro ring j acc _ hex
    rcases hex with h | h
    · obtain ⟨o, ho, _⟩ := h; cases ho
    · simpa [findRealIndexAux] using h
  | cons o rest ih =>
    intro ring j acc hd hex
    rw [findRealIndexAux]
    have hdrop1 : ring.drop (j + 1) = rest := by
      rw [← List.tail_drop, hd]; rfl
    have hoj : ring[j]? = some o := by
      have h0 : (ring.drop j)[0]? = some o := by rw [hd]; simp
      rw [List.getElem?_drop] at h0
      simpa using h0
    by_cases hoi : o.index = gi
    · rw [if_pos hoi]
      exact ih ring (j + 1) j hdrop1 (Or.inr ⟨o, hoj, hoi⟩)
    · rw [if_neg hoi]
      refine ih ring (j + 1) acc hdrop1 ?_
      rcases hex with h | h
      · obtain ⟨o2, ho2, hi2⟩ := h
        rcases List.mem_cons.mp ho2 with h3 | h3
        · rw [h3] at hi2; exact absurd hi2 hoi
        · exact Or.inl ⟨o2, h3, hi2⟩
      · exact Or.inr h

theorem findRealIndex_spec (ring : List PreparedInputOutput) (gi : Nat)
    (h : ∃ o ∈ ring, o.index = gi) :
    ∃ o, ring[findRealIndex ring gi]? = some o ∧ o.index = gi :=
  findRealIndexAux_spec gi ring ring 0 0 (List.drop_zero ring) (Or.inl h)

theorem prepareOneInput_keyImage (mixin : Nat) (realOutput : Output)
    (fakesRaw : List RandomOutput) (p : PreparedInput)
    (hok : prepareOneInput mixin realOutput fakesRaw = .ok p) :
    realOutput.keyImage = some p.keyImage := by
  rw [prepareOneInput] at hok
  split at hok
  · cases hok
  next ki hki =>
    split at hok
    · cases hok
    next inp hin =>
      split at hok
      · cases hok
      · split at hok
        · cases hok
        next mixed hmx =>
          injection hok with hok
          subst hok
          exact hki

theorem prepareOneInput_spec (mixin : Nat) (realOutput : Output)
    (fakesRaw : List RandomOutput) (p : PreparedInput)
    (hfk : List.Pairwise (fun a b : RandomOutput => a.globalIndex ≠ b.globalIndex) fakesRaw)
    (hok : prepareOneInput mixin realOutput fakesRaw = .ok p) :
    p.outputs.length = mixin + 1 ∧
    List.Pairwise (fun a b : PreparedInputOutput => a.index < b.index) p.outputs ∧
    ∃ o, p.outputs[p.realOutputIndex]? = some o ∧ o.index = realOutput.globalIndex := by
  rw [prepareOneInput] at hok
  split at hok
  · cases hok
  next ki hki =>
    split at hok
    · cases hok
    next inp hin =>
      split at hok
      · cases hok
      · split at hok
        · cases hok
        next mixed hmx =>
          obtain ⟨hlen, hnodup, hne⟩ :=
            mixedOutputsFor_spec mixin realOutput fakesRaw mixed hfk hmx
          injection hok with hok
          subst hok
          simp only []
          have hperm := List.perm_insertionSort ringLE
            (mixed ++ [{ key := realOutput.key, index := realOutput.globalIndex }])
          refine ⟨?_, ?_, ?_⟩
          · rw [hperm.length_eq]
            simp [hlen]
          · apply ring_pairwise_lt
            · exact List.sorted_insertionSort ringLE _
            · have hbase : ((mixed ++
                  [{ key := realOutput.key, index := realOutput.globalIndex
                     : PreparedInputOutput }]).map PreparedInputOutput.index).Nodup := by
                rw [List.map_append, List.nodup_append]
                refine ⟨hnodup, by simp, ?_⟩
                intro a ha hmem
                simp only [List.map_cons, List.map_nil, List.mem_singleton] at hmem
                obtain ⟨o, ho, hoa⟩ := List.mem_map.mp ha
                exact hne o ho (by rw [hoa, hmem])
              exact ((hperm.map PreparedInputOutput.index).nodup_iff).mpr hbase
          · apply findRealIndex_spec
            refine ⟨{ key := realOutput.key, index := realOutput.globalIndex }, ?_, rfl⟩
            rw [List.mem_insertionSort]
            exact List.mem_append_right _ (List.mem_singleton.mpr rfl)

theorem prepareInputsLoop_spec (mixin : Nat) :
    ∀ (ins : List Output) (rnds : List (List RandomOutput)) (out : List PreparedInput),
      prepareInputsLoop mixin ins rnds = .ok out →
      out.length = ins.length ∧
      ∀ i (hi : i < out.length) (hi2 : i < ins.length),
        prepareOneInput mixin (ins.get ⟨i, hi2⟩) ((rnds.drop i).headD []) =
          .ok (out.get ⟨i, hi⟩) := by
  intro ins
  induction ins with
  | nil =>
    intro rnds out hok
    rw [prepareInputsLoop] at hok
    injection hok with h
    subst h
    exact ⟨rfl, fun i hi _ => absurd hi (by simp)⟩
  | cons inp rest ih =>
    intro rnds out hok
    rw [prepareInputsLoop] at hok
    split at hok
    · cases hok
    next p hp =>
      split at hok
      · cases hok
      next ps hps =>
        injection hok with h
        subst h
        obtain ⟨hlen, hspec⟩ := ih rnds.tail ps hps
        refine ⟨by simp [hlen], ?_⟩
        intro i hi hi2
        cases i with
        | zero => simpa using hp
        | succ n =>
          have h1 : rnds.tail.drop n = rnds.drop (n + 1) := by
            cases rnds with
            | nil => simp
            | cons r rs => rfl
          have h2 := hspec n (by simpa using hi) (by simpa using hi2)
          rw [h1] at h2
          simpa using h2

/-! ## Claim theorem: C7 -/

/-- C7: after input preparation succeeds and the authoritative sort is
applied — i.e. before any `TX_LOAD_INPUT` is issued — the prepared inputs
are ordered strictly descending by key image, and within each prepared
input the ring outputs list has exactly `mixin + 1` entries, is strictly
ascending by `index`, and carries the matching real output's `globalIndex`
at position `realOutputIndex`.  The hypotheses state the well-formedness
the source relies on: the real inputs carry pairwise distinct key images
(key images are unique per output by construction) and each random-output
set carries pairwise distinct global indexes (they are drawn from distinct
chain outputs). -/
theorem claim_C7 (inputs : List Output) (randomOutputs : List (List RandomOutput))
    (mixin : Nat) (prepared : List PreparedInput)
    (hok : prepareTransactionInputs inputs randomOutputs mixin = .ok prepared)
    (hki : List.Pairwise (fun a b : Output => a.keyImage ≠ b.keyImage) inputs)
    (hfk : ∀ s ∈ randomOutputs,
      List.Pairwise (fun a b : RandomOutput => a.globalIndex ≠ b.globalIndex) s) :
    List.Pairwise (fun a b : PreparedInput => b.keyImage < a.keyImage)
      (sortPreparedInputs prepared) ∧
    (∀ p ∈ sortPreparedInputs prepared,
      p.outputs.length = mixin + 1 ∧
      List.Pairwise (fun a b : PreparedInputOutput => a.index < b.index) p.outputs) ∧
    prepared.length = inputs.length ∧
    ∀ i (hi : i < prepared.length) (hi2 : i < inputs.length),
      ∃ o, (prepared.get ⟨i, hi⟩).outputs[(prepared.get ⟨i, hi⟩).realOutputIndex]? =
          some o ∧ o.index = (inputs.get ⟨i, hi2⟩).globalIndex := by
  rw [prepareTransactionInputs] at hok
  split at hok
  · cases hok
  · split at hok
    · cases hok
    · obtain ⟨hlen, hspec⟩ := prepareInputsLoop_spec mixin inputs randomOutputs prepared hok
      have hsets : ∀ i : Nat,
          List.Pairwise (fun a b : RandomOutput => a.globalIndex ≠ b.globalIndex)
            ((randomOutputs.drop i).headD []) := by
        intro i
        cases hd : randomOutputs.drop i with
        | nil => simp
        | cons s ss =>
          have hmem : s ∈ randomOutputs :=
            List.drop_subset i randomOutputs (hd ▸ List.mem_cons_self s ss)
          simpa using hfk s hmem
      have hone : ∀ i (hi : i < prepared.length),
          ∃ hi2 : i < inputs.length,
            prepareOneInput mixin (inputs.get ⟨i, hi2⟩) ((randomOutputs.drop i).headD []) =
              .ok (prepared.get ⟨i, hi⟩) := by
        intro i hi
        exact ⟨hlen ▸ hi, hspec i hi (hlen ▸ hi)⟩
      have hprepki :
          List.Pairwise (fun a b : PreparedInput => a.keyImage ≠ b.keyImage) prepared := by
        rw [List.pairwise_iff_getElem]
        intro i j hi hj hij
        obtain ⟨hi2, hpi⟩ := hone i hi
        obtain ⟨hj2, hpj⟩ := hone j hj
        have hki2 := List.pairwise_iff_getElem.mp hki i j hi2 hj2 hij
        have e1 := prepareOneInput_keyImage _ _ _ _ hpi
        have e2 := prepareOneInput_keyImage _ _ _ _ hpj
        simp only [List.get_eq_getElem] at e1 e2
        rw [e1, e2] at hki2
        simpa using hki2
      have hperm := List.perm_insertionSort keyImageGE prepared
      refine ⟨?_, ?_, hlen, ?_⟩
      · have hsorted : List.Pairwise keyImageGE (sortPreparedInputs prepared) :=
          List.sorted_insertionSort keyImageGE prepared
        have hne : List.Pairwise (fun a b : PreparedInput => a.keyImage ≠ b.keyImage)
            (sortPreparedInputs prepared) :=
          (List.Perm.pairwise_iff (fun h => h.symm) hperm).mpr hprepki
        exact (hsorted.and hne).imp fun h => Nat.lt_of_le_of_ne h.1 (Ne.symm h.2)
      · intro p hp
        have hp2 : p ∈ prepared := by
          simpa [sortPreparedInputs] using hp
        obtain ⟨i, hi, hpi⟩ := List.getElem_of_mem hp2
        obtain ⟨hi2, hone2⟩ := hone i hi
        have := prepareOneInput_spec mixin _ _ _ (hsets i) hone2
        simp only [List.get_eq_getElem] at this
        rw [hpi] at this
        exact ⟨this.1, this.2.1⟩
      · intro i hi hi2
        obtain ⟨hi3, hone2⟩ := hone i hi
        obtain ⟨-, -, h3⟩ := prepareOneInput_spec mixin _ _ _ (hsets i) hone2
        exact h3

/-- Witness for C7: one real output (global index 7, key image 99) mixed
with one decoy (global index 3) at mixin 1. -/
theorem claim_C7_witness :
    List.Pairwise (fun a b : PreparedInput => b.keyImage < a.keyImage)
      (sortPreparedInputs
        [{ amount := 5, realOutputIndex := 1, keyImage := 99,
           input := { publicEphemeral := 0,
                      transactionKeys := { publicKey := 0, derivedKey := 0, outputIndex := 0 },
                      privateEphemeral := some 0 },
           outputs := [{ key := 2, index := 3 }, { key := 10, index := 7 }] }]) := by
  have h := claim_C7
    [{ amount := 5, index := 0, globalIndex := 7, key := 10, keyImage := some 99,
       input := some { publicEphemeral := 0,
                       transactionKeys := { publicKey := 0, derivedKey := 0, outputIndex := 0 },
                       privateEphemeral := some 0 } }]
    [[{ key := 2, globalIndex := 3 }]] 1
    [{ amount := 5, realOutputIndex := 1, keyImage := 99,
       input := { publicEphemeral := 0,
                  transactionKeys := { publicKey := 0, derivedKey := 0, outputIndex := 0 },
                  privateEphemeral := some 0 },
       outputs := [{ key := 2, index := 3 }, { key := 10, index := 7 }] }]
    (by rfl) (by simp) (by simp)
  exact h.1

/-! ## Claim theorems: C8 -/

theorem callDevice_trace (c : Cmd) (σ : DevState) :
    ((callDevice c σ).2).trace = σ.trace ++ [c] := by
  rw [callDevice]
  cases σ.script <;> rfl

/-- C8 (amended): the device-driving phase of `createTransaction` — the
`try`/`finally` that spans from `TX_START` through the transaction
retrieval — issues `TX_RESET` as its final device command on every exit
path: on success, on every device refusal, on every state-machine
mismatch, and on every verification failure inside the block.  The
original claim's "never exits without issuing TX_RESET" fails for the exit
paths before this phase (extraData rejection, validation failures, input
preparation, the `RANDOM_KEY_PAIR` exchange), which raise without any
`TX_RESET`: see the counterexample. -/
theorem claim_C8 (maxOut maxLedgerTxSize : Nat) (decode : TxDecoder)
    (unlock txPub : Nat) (pid : Option Nat) (tIns : List PreparedInput)
    (tOuts : List PreparedOutput) (σ : DevState) :
    ((createTxDevicePhase maxOut maxLedgerTxSize decode unlock txPub pid
        tIns tOuts σ).2).trace.getLast? = some Cmd.txReset := by
  show ((callDevice Cmd.txReset
      (createTxTryBody maxOut maxLedgerTxSize decode unlock txPub pid tIns tOuts σ).2).2).trace.getLast?
    = some Cmd.txReset
  rw [callDevice_trace]
  exact List.getLast?_concat _

/-- Counterexample to C8 as stated: calling `createTransaction` with
`extraData` supplied raises `NotSupported` — an exceptional exit — while
the device trace stays empty: no `TX_RESET` (indeed no command at all) is
issued, because the rejection happens before the `try`/`finally` block. -/
theorem claim_C8_cex :
    createTransactionModel
      { defaultNetworkFee := 10, activateFeePerByteTransactions := false,
        maximumOutputAmount := 1000, maximumOutputsPerTransaction := 90,
        fusionMinInputCount := 12, fusionMinInOutRq := 4,
        maximumLedgerTransactionSize := 38400 }
      { generateKeyDerivation := fun _ _ => 0, derivePublicKey := fun _ _ _ => 0,
        cnFastHash := fun _ => 0 }
      (fun _ => none) [] [] [] 0 (some 10) none none true
      { script := [], trace := [] } =
    (Except.error NErr.notSupported, { script := [], trace := [] }) := rfl

end LedgerSpec
